import Mathlib

/-!
Verification of the Session_bot repository (src/main.py) against its
natural-language specification.

The embedding models Python byte strings as `List Nat` (UTF-8 encode and
decode are mutually inverse, so the str/bytes conversion collapses to the
identity), the MongoDB accounts collection as a `List Account`, and the
environment as an association list.  Fallible Python code (exceptions)
is embedded as `Except`.
-/

namespace SessionBot

/-- Decryption failure; models `cryptography.fernet.InvalidToken`, the
exception raised by `Fernet.decrypt` on a malformed token or key mismatch. -/
inductive CryptoError where
  | invalidToken
deriving DecidableEq, Repr

/-- Models the `cryptography.fernet.Fernet.encrypt` call made by
`cipher_suite` at src/main.py line 60 (library code, not part of src/).
A Fernet token starts with the version byte 0x80 and is bound to the key
by an HMAC; the model keeps exactly the properties the library documents:
encryption under a key produces a non-empty token from which `decrypt`
under the same key recovers the plaintext, and every other byte string
fails to decrypt.  The version byte and key binding are kept as explicit
leading elements. -/
def fernetEncrypt (key : Nat) (data : List Nat) : List Nat :=
  128 :: key :: data

/-- Models `cryptography.fernet.Fernet.decrypt`: succeeds exactly on tokens
produced by `fernetEncrypt` under the same key, otherwise raises
`InvalidToken` (here: returns `.error .invalidToken`). -/
def fernetDecrypt (key : Nat) (token : List Nat) : Except CryptoError (List Nat) :=
  match token with
  | v :: k :: rest => if v = 128 ∧ k = key then .ok rest else .error .invalidToken
  | _ => .error .invalidToken

/-- `encrypt_data` from src/main.py lines 85-89.  The Python parameter is a
string that may also be `None` at call sites, and `if not data` is true for
both `None` and the empty string, so the input is an `Option`: `none`
models `None`, `some []` models the empty string. -/
def encrypt_data (key : Nat) : Option (List Nat) → Option (List Nat)
  | none => none
  | some data => if data = [] then some data else some (fernetEncrypt key data)

/-- `decrypt_data` from src/main.py lines 91-95.  The `cipher_suite.decrypt`
call can raise `InvalidToken`, which propagates to the caller, so the result
is an `Except`. -/
def decrypt_data (key : Nat) : Option (List Nat) → Except CryptoError (Option (List Nat))
  | none => .ok none
  | some d =>
    if d = [] then .ok (some d)
    else
      match fernetDecrypt key d with
      | .ok p => .ok (some p)
      | .error e => .error e

theorem fernetEncrypt_ne_plaintext (key : Nat) (data : List Nat) :
    fernetEncrypt key data ≠ data := by
  intro h
  have hlen := congrArg List.length h
  simp [fernetEncrypt] at hlen
  omega

/-- Claim C3: for every non-empty byte string, decrypting the result of
encrypting it under the provisioned key returns the original string. -/
theorem c3_decrypt_encrypt_roundtrip (key : Nat) (s : List Nat) (h : s ≠ []) :
    decrypt_data key (encrypt_data key (some s)) = .ok (some s) := by
  simp [encrypt_data, h, decrypt_data, fernetEncrypt, fernetDecrypt]

/-- Witness for C3 at a concrete input. -/
theorem c3_decrypt_encrypt_roundtrip_witness :
    ([7] : List Nat) ≠ [] ∧ decrypt_data 0 (encrypt_data 0 (some [7])) = .ok (some [7]) :=
  ⟨by decide, c3_decrypt_encrypt_roundtrip 0 [7] (by decide)⟩

/-- Claim C4: empty input (`some []`, the empty string) and absent input
(`none`) pass through both `encrypt_data` and `decrypt_data` unchanged, and
`decrypt_data` does not raise on them. -/
theorem c4_empty_passthrough (key : Nat) :
    encrypt_data key (some []) = some [] ∧
    decrypt_data key (some []) = .ok (some []) ∧
    encrypt_data key none = none ∧
    decrypt_data key none = .ok none :=
  ⟨rfl, rfl, rfl, rfl⟩

/-- Claim C5: every non-empty input that is not a token produced by
`fernetEncrypt` under the provisioned key makes `decrypt_data` fail with the
crypto error; the failure is a value returned to the caller (an `.error`
result), not a crash. -/
theorem c5_malformed_decrypt_fails (key : Nat) (c : List Nat) (hne : c ≠ [])
    (hmal : ∀ s : List Nat, fernetEncrypt key s ≠ c) :
    decrypt_data key (some c) = .error CryptoError.invalidToken := by
  match c with
  | [] => exact absurd rfl hne
  | [v] => simp [decrypt_data, fernetDecrypt]
  | v :: k :: rest =>
    by_cases hvk : v = 128 ∧ k = key
    · exact absurd (by simp [fernetEncrypt, hvk.1, hvk.2]) (hmal rest)
    · simp [decrypt_data, fernetDecrypt, hvk]

/-- Witness for C5 at a concrete input. -/
theorem c5_malformed_decrypt_fails_witness :
    ([1] : List Nat) ≠ [] ∧ decrypt_data 0 (some [1]) = .error CryptoError.invalidToken :=
  ⟨by decide, c5_malformed_decrypt_fails 0 [1] (by decide)
    (by intro s hs; simp [fernetEncrypt] at hs)⟩

/-- One document of the `accounts_collection`.  The fields are the ones the
insertion sites at src/main.py lines 815-820 and 863-868 write: `_id` (here
`id`, assigned by MongoDB), `user_id`, `phone_number`, `session_data` and
`created_at`.  `session_data` is an `Option` because the field can be removed
by the `$unset` update at lines 1594-1597. -/
structure Account where
  id : String
  user_id : Int
  phone_number : String
  session_data : Option (List Nat)
  created_at : Nat
deriving DecidableEq, Repr

/-- The loop body of `get_user_accounts` (src/main.py lines 124-127): a
present, non-empty `session_data` field is replaced by its decryption. -/
def decryptAccount (key : Nat) (a : Account) : Except CryptoError Account :=
  match a.session_data with
  | none => .ok a
  | some d =>
    if d = [] then .ok a
    else
      match decrypt_data key (some d) with
      | .ok p => .ok { a with session_data := p }
      | .error e => .error e

/-- The `for account in accounts` loop of `get_user_accounts`: the first
decryption failure propagates, otherwise every account is decrypted. -/
def decryptAccounts (key : Nat) : List Account → Except CryptoError (List Account)
  | [] => .ok []
  | a :: rest =>
    match decryptAccount key a, decryptAccounts key rest with
    | .ok a2, .ok rest2 => .ok (a2 :: rest2)
    | .error e, _ => .error e
    | .ok _, .error e => .error e

/-- `get_user_accounts` from src/main.py lines 121-128: the accounts of one
user, with stored session data decrypted for use. -/
def get_user_accounts (key : Nat) (store : List Account) (uid : Int) :
    Except CryptoError (List Account) :=
  decryptAccounts key (store.filter (fun a => a.user_id == uid))

/-- `get_paginated_accounts` from src/main.py lines 130-137: the slice
`accounts[page*page_size : page*page_size + page_size]` and the total page
count `(len(accounts) + page_size - 1) // page_size`. -/
def get_paginated_accounts (key : Nat) (store : List Account) (uid : Int)
    (page : Nat) (page_size : Nat) : Except CryptoError (List Account × Nat) :=
  match get_user_accounts key store uid with
  | .error e => .error e
  | .ok accounts =>
    let total_pages := (accounts.length + page_size - 1) / page_size
    let start := page * page_size
    .ok ((accounts.drop start).take page_size, total_pages)

/-- The `accounts_collection.insert_one` call of `add_account_code`
(src/main.py lines 815-820): unconditionally appends a new document whose
`session_data` is `encrypt_data(session_final)`. -/
def add_account_code_insert (key : Nat) (store : List Account) (uid : Int)
    (phone : String) (session_final : List Nat) (now : Nat) (oid : String) :
    List Account :=
  store ++ [{ id := oid, user_id := uid, phone_number := phone,
              session_data := encrypt_data key (some session_final),
              created_at := now }]

/-- The `accounts_collection.insert_one` call of `add_account_password`
(src/main.py lines 863-868): the same unconditional insert. -/
def add_account_password_insert (key : Nat) (store : List Account) (uid : Int)
    (phone : String) (session_final : List Nat) (now : Nat) (oid : String) :
    List Account :=
  store ++ [{ id := oid, user_id := uid, phone_number := phone,
              session_data := encrypt_data key (some session_final),
              created_at := now }]

/-- Models MongoDB `update_one`: rewrites the first document matching the
predicate and leaves the rest unchanged. -/
def update_first (p : Account → Bool) (f : Account → Account) :
    List Account → List Account
  | [] => []
  | a :: rest => if p a then f a :: rest else a :: update_first p f rest

/-- The session-refresh update of the `refresh_session_` callback
(src/main.py lines 1508-1511): sets `session_data` of the matching account
to `encrypt_data(session_string)`. -/
def refresh_session_update (key : Nat) (store : List Account)
    (account_id : String) (session_string : List Nat) : List Account :=
  update_first (fun a => a.id == account_id)
    (fun a => { a with session_data := encrypt_data key (some session_string) })
    store

theorem decryptAccounts_append_ok {key : Nat} {l1 l2 : List Account}
    {r1 r2 : List Account}
    (h1 : decryptAccounts key l1 = .ok r1)
    (h2 : decryptAccounts key l2 = .ok r2) :
    decryptAccounts key (l1 ++ l2) = .ok (r1 ++ r2) := by
  induction l1 generalizing r1 with
  | nil =>
    simp [decryptAccounts] at h1
    simp [h1, h2]
  | cons a rest ih =>
    rw [decryptAccounts] at h1
    rcases ha : decryptAccount key a with e | a2
    · rw [ha] at h1; exact absurd h1 (by simp)
    · rw [ha] at h1
      rcases hr : decryptAccounts key rest with e | rest2
      · rw [hr] at h1; exact absurd h1 (by simp)
      · rw [hr] at h1
        simp at h1
        rw [List.cons_append, decryptAccounts, ha, ih hr]
        simp [← h1]

theorem mem_update_first {p : Account → Bool} {f : Account → Account} :
    ∀ {l : List Account} {a : Account}, a ∈ update_first p f l →
      a ∈ l ∨ ∃ b, a = f b
  | [], a, h => by simp [update_first] at h
  | b :: rest, a, h => by
    rw [update_first] at h
    by_cases hb : p b
    · rw [if_pos hb] at h
      rcases List.mem_cons.mp h with h | h
      · exact Or.inr ⟨b, h⟩
      · exact Or.inl (List.mem_cons_of_mem _ h)
    · rw [if_neg hb] at h
      rcases List.mem_cons.mp h with h | h
      · exact Or.inl (h ▸ List.mem_cons_self _ _)
      · rcases mem_update_first h with h | h
        · exact Or.inl (List.mem_cons_of_mem _ h)
        · exact Or.inr h

/-- Claim C2: every session credential written by the account-registration
operations (sign-in with code, sign-in with 2FA password, session refresh)
is stored as the Vault ciphertext of the credential — every record of the
resulting store is either a pre-existing one or carries
`fernetEncrypt key cred`, which differs from the plaintext — and reading
back through `get_user_accounts` yields the decrypted plaintext credential. -/
theorem c2_credentials_encrypted_at_rest (key : Nat) (store : List Account)
    (uid : Int) (phone : String) (cred : List Nat) (now : Nat) (oid aid : String)
    (accs : List Account) (hcred : cred ≠ [])
    (hprev : get_user_accounts key store uid = .ok accs) :
    (∀ a ∈ add_account_code_insert key store uid phone cred now oid,
        a ∈ store ∨ a.session_data = some (fernetEncrypt key cred)) ∧
    (∀ a ∈ add_account_password_insert key store uid phone cred now oid,
        a ∈ store ∨ a.session_data = some (fernetEncrypt key cred)) ∧
    (∀ a ∈ refresh_session_update key store aid cred,
        a ∈ store ∨ a.session_data = some (fernetEncrypt key cred)) ∧
    fernetEncrypt key cred ≠ cred ∧
    get_user_accounts key (add_account_code_insert key store uid phone cred now oid) uid =
      .ok (accs ++ [{ id := oid, user_id := uid, phone_number := phone,
                      session_data := some cred, created_at := now }]) := by
  have henc : encrypt_data key (some cred) = some (fernetEncrypt key cred) := by
    simp [encrypt_data, hcred]
  refine ⟨?_, ?_, ?_, fernetEncrypt_ne_plaintext key cred, ?_⟩
  · intro a ha
    rcases List.mem_append.mp ha with h | h
    · exact Or.inl h
    · simp at h
      exact Or.inr (by simp [h, henc])
  · intro a ha
    rcases List.mem_append.mp ha with h | h
    · exact Or.inl h
    · simp at h
      exact Or.inr (by simp [h, henc])
  · intro a ha
    rcases mem_update_first ha with h | ⟨b, hb⟩
    · exact Or.inl h
    · exact Or.inr (by simp [hb, henc])
  · rw [get_user_accounts] at hprev ⊢
    rw [add_account_code_insert, List.filter_append]
    have hfil : List.filter (fun a => a.user_id == uid)
        [({ id := oid, user_id := uid, phone_number := phone,
            session_data := encrypt_data key (some cred),
            created_at := now } : Account)] =
        [{ id := oid, user_id := uid, phone_number := phone,
           session_data := encrypt_data key (some cred), created_at := now }] := by
      simp [List.filter]
    rw [hfil]
    refine decryptAccounts_append_ok hprev ?_
    have hdec : decrypt_data key (some (128 :: key :: cred)) = .ok (some cred) := by
      simp [decrypt_data, fernetDecrypt]
    simp [decryptAccounts, decryptAccount, henc, fernetEncrypt, hdec]

/-- Witness for C2 at a concrete input. -/
theorem c2_credentials_encrypted_at_rest_witness :
    ([5] : List Nat) ≠ [] ∧
    get_user_accounts 0 [] 1 = .ok [] ∧
    ((∀ a ∈ add_account_code_insert 0 [] 1 "+1" [5] 2 "a",
        a ∈ ([] : List Account) ∨ a.session_data = some (fernetEncrypt 0 [5])) ∧
     (∀ a ∈ add_account_password_insert 0 [] 1 "+1" [5] 2 "a",
        a ∈ ([] : List Account) ∨ a.session_data = some (fernetEncrypt 0 [5])) ∧
     (∀ a ∈ refresh_session_update 0 [] "a" [5],
        a ∈ ([] : List Account) ∨ a.session_data = some (fernetEncrypt 0 [5])) ∧
     fernetEncrypt 0 [5] ≠ [5] ∧
     get_user_accounts 0 (add_account_code_insert 0 [] 1 "+1" [5] 2 "a") 1 =
       .ok ([] ++ [{ id := "a", user_id := 1, phone_number := "+1",
                     session_data := some [5], created_at := 2 }])) :=
  ⟨by decide, rfl,
    c2_credentials_encrypted_at_rest 0 [] 1 "+1" [5] 2 "a" "a" [] (by decide) rfl⟩

/-- A concrete account used by counterexamples and witnesses. -/
def acctA : Account :=
  { id := "a", user_id := 7, phone_number := "+1", session_data := none,
    created_at := 0 }

/-- The phone-uniqueness invariant asserted by the spec: no two stored
accounts share a `phone_number`. -/
def phonesUnique (store : List Account) : Prop :=
  (store.map (fun a => a.phone_number)).Nodup

/-- Counterexample to claim C6: a store holding one account with phone `+1`
satisfies the uniqueness invariant, yet registering the same phone through
`add_account_code` inserts a second record with the same `phone_number`,
breaking it — the insertion operations do not preserve uniqueness. -/
theorem c6_counterexample :
    phonesUnique [acctA] ∧
    ¬ phonesUnique (add_account_code_insert 0 [acctA] 7 "+1" [5] 1 "b") := by
  constructor
  · simp [phonesUnique, acctA]
  · intro h
    rw [phonesUnique, add_account_code_insert] at h
    simp [acctA] at h

/-- Claim C6 (amended): `phone_number` uniqueness is not enforced by the
account-insertion operations.  Both sign-in insertion paths unconditionally
append a record carrying the given phone number, so registering a phone
number already present in the store produces a store with a duplicate
`phone_number`; the uniqueness of phones is at most a property the callers
maintain, never checked by the code. -/
theorem c6_phone_uniqueness_not_preserved (key : Nat) (store : List Account)
    (uid : Int) (phone : String) (cred : List Nat) (now : Nat) (oid : String)
    (h : phone ∈ store.map (fun a => a.phone_number)) :
    (add_account_code_insert key store uid phone cred now oid).map
        (fun a => a.phone_number) =
      store.map (fun a => a.phone_number) ++ [phone] ∧
    ¬ phonesUnique (add_account_code_insert key store uid phone cred now oid) ∧
    ¬ phonesUnique (add_account_password_insert key store uid phone cred now oid) := by
  have hmap1 : (add_account_code_insert key store uid phone cred now oid).map
      (fun a => a.phone_number) = store.map (fun a => a.phone_number) ++ [phone] := by
    simp [add_account_code_insert]
  have hmap2 : (add_account_password_insert key store uid phone cred now oid).map
      (fun a => a.phone_number) = store.map (fun a => a.phone_number) ++ [phone] := by
    simp [add_account_password_insert]
  refine ⟨hmap1, ?_, ?_⟩
  · intro hnd
    rw [phonesUnique, hmap1, List.nodup_append] at hnd
    exact hnd.2.2 h (List.mem_singleton_self phone)
  · intro hnd
    rw [phonesUnique, hmap2, List.nodup_append] at hnd
    exact hnd.2.2 h (List.mem_singleton_self phone)

/-- Witness for the amended C6 at a concrete input. -/
theorem c6_phone_uniqueness_not_preserved_witness :
    "+1" ∈ [acctA].map (fun a => a.phone_number) ∧
    ((add_account_code_insert 0 [acctA] 7 "+1" [5] 1 "b").map
        (fun a => a.phone_number) =
       [acctA].map (fun a => a.phone_number) ++ ["+1"] ∧
     ¬ phonesUnique (add_account_code_insert 0 [acctA] 7 "+1" [5] 1 "b") ∧
     ¬ phonesUnique (add_account_password_insert 0 [acctA] 7 "+1" [5] 1 "b")) :=
  ⟨by simp [acctA],
    c6_phone_uniqueness_not_preserved 0 [acctA] 7 "+1" [5] 1 "b" (by simp [acctA])⟩

/-- Claim C9: for every user and page index, with positive page size `k`,
`get_paginated_accounts` returns exactly the slice of the decrypted account
list from position `page * k` of length at most `k` (in list order), paired
with the ceiling `⌈n / k⌉` of the account count over the page size, which is
`0` for an empty account list. -/
theorem c9_pagination (key : Nat) (store : List Account) (uid : Int)
    (page k : Nat) (accs : List Account) (hk : 0 < k)
    (hacc : get_user_accounts key store uid = .ok accs) :
    get_paginated_accounts key store uid page k =
      .ok ((accs.drop (page * k)).take k, accs.length ⌈/⌉ k) ∧
    ((accs.drop (page * k)).take k).length ≤ k ∧
    (accs.length = 0 → accs.length ⌈/⌉ k = 0) := by
  refine ⟨?_, ?_, ?_⟩
  · rw [get_paginated_accounts, hacc, Nat.ceilDiv_eq_add_pred_div]
  · simp [List.length_take]
  · intro h
    simp [h]

/-- Witness for C9 at a concrete input. -/
theorem c9_pagination_witness :
    0 < 1 ∧ get_user_accounts 0 [acctA] 7 = .ok [acctA] ∧
    (get_paginated_accounts 0 [acctA] 7 0 1 =
        .ok (([acctA].drop (0 * 1)).take 1, [acctA].length ⌈/⌉ 1) ∧
     (([acctA].drop (0 * 1)).take 1).length ≤ 1 ∧
     ([acctA].length = 0 → [acctA].length ⌈/⌉ 1 = 0)) :=
  ⟨Nat.one_pos, rfl, c9_pagination 0 [acctA] 7 0 1 [acctA] Nat.one_pos rfl⟩

/-- Models the Python string method `strip()`: removes whitespace from both
ends.  Message text is modelled as its character list. -/
def pyStrip (cs : List Char) : List Char :=
  ((cs.dropWhile (fun c => c.isWhitespace)).reverse.dropWhile
    (fun c => c.isWhitespace)).reverse

/-- Digit-string value used by the model of Python `int`. -/
def pyIntCore (cs : List Char) : Option Nat :=
  if cs = [] then none
  else if cs.all (fun c => c.isDigit) then
    some (cs.foldl (fun acc c => 10 * acc + (c.toNat - 48)) 0)
  else none

/-- Models the Python builtin `int(str)` for decimal literals: surrounding
whitespace is stripped, then an optional sign is followed by one or more
ASCII digits; every other string raises `ValueError` (here: `none`).
Underscore digit grouping and non-ASCII digits are outside the model. -/
def pyInt (cs : List Char) : Option Int :=
  match pyStrip cs with
  | '-' :: rest => (pyIntCore rest).map (fun n => -(n : Int))
  | '+' :: rest => (pyIntCore rest).map (fun n => (n : Int))
  | ds => (pyIntCore ds).map (fun n => (n : Int))

/-- The conversation states of src/main.py lines 63-64, plus the
`ConversationHandler.END` sentinel. -/
inductive ConvState where
  | ACCOUNT_PHONE
  | ACCOUNT_CODE
  | ACCOUNT_PASSWORD
  | GROUP_NAME
  | GROUP_COUNT
  | GROUP_DELAY
  | END
deriving DecidableEq, Repr

/-- The `context.user_data` keys the group-creation conversation writes. -/
structure UserData where
  group_name : Option String
  group_count : Option Int
  group_delay : Option Int
deriving DecidableEq, Repr

/-- `create_groups_count` from src/main.py lines 1013-1041: strip the text,
parse it with `int`, and reject (re-prompt, staying in `GROUP_COUNT`, with
no write to `user_data`) unless the value lies in `[1, 50]`; on success store
it as `group_count` and advance to `GROUP_DELAY`.  The out-of-range `raise
ValueError` and the parse failure share the single `except ValueError`
branch of the source. -/
def create_groups_count (text : List Char) (ud : UserData) : UserData × ConvState :=
  let count_text := pyStrip text
  match pyInt count_text with
  | none => (ud, ConvState.GROUP_COUNT)
  | some count =>
    if count < 1 ∨ count > 50 then (ud, ConvState.GROUP_COUNT)
    else ({ ud with group_count := some count }, ConvState.GROUP_DELAY)

/-- Claim C10: group-count validation is atomic on error.  Whenever the
stripped text parses to an integer in `[1, 50]`, exactly that integer is
stored as `group_count` and the conversation advances to the delay step;
whenever the parse fails or the value is out of range, the per-user data is
returned unchanged and the conversation stays in the count step. -/
theorem c10_group_count_validation (text : List Char) (ud : UserData) :
    (∀ n : Int, pyInt (pyStrip text) = some n → 1 ≤ n → n ≤ 50 →
        create_groups_count text ud =
          ({ ud with group_count := some n }, ConvState.GROUP_DELAY)) ∧
    (∀ n : Int, pyInt (pyStrip text) = some n → (n < 1 ∨ 50 < n) →
        create_groups_count text ud = (ud, ConvState.GROUP_COUNT)) ∧
    (pyInt (pyStrip text) = none →
        create_groups_count text ud = (ud, ConvState.GROUP_COUNT)) := by
  refine ⟨?_, ?_, ?_⟩
  · intro n hn h1 h50
    simp only [create_groups_count, hn]
    rw [if_neg (by omega)]
  · intro n hn hout
    simp only [create_groups_count, hn]
    rw [if_pos (by omega)]
  · intro hn
    simp only [create_groups_count, hn]

/-- Witness for C10 at concrete inputs: `7` is accepted and stored, `51` and
`abc` are rejected without touching the user data. -/
theorem c10_group_count_validation_witness :
    pyInt (pyStrip [' ', '7']) = some 7 ∧
    create_groups_count [' ', '7']
        { group_name := none, group_count := none, group_delay := none } =
      ({ group_name := none, group_count := some 7, group_delay := none },
        ConvState.GROUP_DELAY) ∧
    pyInt (pyStrip ['5', '1']) = some 51 ∧
    create_groups_count ['5', '1']
        { group_name := none, group_count := none, group_delay := none } =
      ({ group_name := none, group_count := none, group_delay := none },
        ConvState.GROUP_COUNT) ∧
    pyInt (pyStrip ['a', 'b', 'c']) = none ∧
    create_groups_count ['a', 'b', 'c']
        { group_name := none, group_count := none, group_delay := none } =
      ({ group_name := none, group_count := none, group_delay := none },
        ConvState.GROUP_COUNT) := by
  have h7 : pyInt (pyStrip [' ', '7']) = some 7 := by decide
  have h51 : pyInt (pyStrip ['5', '1']) = some 51 := by decide
  have habc : pyInt (pyStrip ['a', 'b', 'c']) = none := by decide
  refine ⟨h7, ?_, h51, ?_, habc, ?_⟩
  · exact (c10_group_count_validation [' ', '7'] _).1 7 h7 (by omega) (by omega)
  · exact (c10_group_count_validation ['5', '1'] _).2.1 51 h51 (by omega)
  · exact (c10_group_count_validation ['a', 'b', 'c'] _).2.2 habc

/-- The process environment, as an association list of variable names to
values. -/
def lookupEnv : List (String × String) → String → Option String
  | [], _ => none
  | (k, v) :: rest, name => if k = name then some v else lookupEnv rest name

/-- Models `os.getenv(name, default)`. -/
def os_getenv (env : List (String × String)) (name dflt : String) : String :=
  (lookupEnv env name).getD dflt

/-- `BOT_TOKEN` from src/main.py line 51. -/
def BOT_TOKEN (env : List (String × String)) : String :=
  os_getenv env "BOT_TOKEN" ""

/-- `OWNER_ID` from src/main.py line 52; the `int` conversion can raise at
module load, hence the `Option`. -/
def OWNER_ID (env : List (String × String)) : Option Int :=
  pyInt (os_getenv env "OWNER_ID" "0").toList

/-- `API_ID` from src/main.py line 55. -/
def API_ID (env : List (String × String)) : Option Int :=
  pyInt (os_getenv env "API_ID" "0").toList

/-- `API_HASH` from src/main.py line 56. -/
def API_HASH (env : List (String × String)) : String :=
  os_getenv env "API_HASH" ""

/-- `ENCRYPTION_KEY` from src/main.py line 59:
`os.getenv("ENCRYPTION_KEY", Fernet.generate_key().decode())` — the second
argument is a freshly generated random key, passed here as
`generated_key`. -/
def ENCRYPTION_KEY (env : List (String × String)) (generated_key : String) :
    String :=
  os_getenv env "ENCRYPTION_KEY" generated_key

/-- A character of the url-safe base64 alphabet used by Fernet keys. -/
def urlsafeB64Char (c : Char) : Bool :=
  c.isAlphanum || c == '-' || c == '_'

/-- Models the key validation performed by `cryptography.fernet.Fernet` on
construction at src/main.py line 60 (library code, not in src/): the key
must be the url-safe base64 encoding of exactly 32 bytes — a 44-character
string over the url-safe alphabet ending in one padding character, which is
the shape `Fernet.generate_key()` always produces.  Any other string makes
the constructor raise `ValueError` at module load, so the process never
starts. -/
def fernetKeyValid (key : String) : Bool :=
  let cs := key.toList
  cs.length == 44 && (cs.take 43).all urlsafeB64Char && cs.getLast? == some '='

/-- Whether the process gets past startup: the module-level `int`
conversions of lines 52 and 55 must succeed, the
`Fernet(ENCRYPTION_KEY.encode())` construction of line 60 must accept the
resolved key (the environment value when present, the generated fallback
otherwise), and the checks of `main` (src/main.py lines 1864-1872) must
pass — `BOT_TOKEN` non-empty, `API_ID` non-zero, `API_HASH` non-empty. -/
def process_starts (env : List (String × String)) (generated_key : String) :
    Bool :=
  match OWNER_ID env, API_ID env with
  | some _, some api_id =>
    if fernetKeyValid (ENCRYPTION_KEY env generated_key) then
      if BOT_TOKEN env = "" then false
      else if api_id = 0 ∨ API_HASH env = "" then false
      else true
    else false
  | _, _ => false

/-- A concrete environment that supplies every variable the startup checks
need but no encryption key. -/
def envNoKey : List (String × String) :=
  [("BOT_TOKEN", "token"), ("API_ID", "123"), ("API_HASH", "hash")]

/-- A concrete value of the shape `Fernet.generate_key()` produces: the
url-safe base64 encoding of 32 bytes. -/
def genKeyW : String := "AAAAAAAAAAAAAAAAAAAAAAAAAAAAAAAAAAAAAAAAAAA="

/-- Counterexample to claim C1: with `ENCRYPTION_KEY` absent from the
environment, the process still starts — `os.getenv` falls back to the
freshly generated key, which the `Fernet` constructor accepts — so absence
is compensated rather than fatal, and the key in use is not externally
supplied. -/
theorem c1_counterexample :
    lookupEnv envNoKey "ENCRYPTION_KEY" = none ∧
    fernetKeyValid genKeyW = true ∧
    process_starts envNoKey genKeyW = true ∧
    ENCRYPTION_KEY envNoKey genKeyW = genKeyW := by
  refine ⟨by decide, by decide, by decide, by decide⟩

/-- Claim C1 (amended): absence of the symmetric encryption key is not a
fatal startup condition.  When `ENCRYPTION_KEY` is missing from the
environment, the module falls back to a freshly generated Fernet key, which
always passes the key validation of the `Fernet` constructor, so whether
the process starts is decided entirely by the remaining startup
requirements — parseable `OWNER_ID` and `API_ID`, non-empty `BOT_TOKEN`,
non-zero `API_ID`, non-empty `API_HASH`; within one run all encrypt and
decrypt operations still use the single key chosen at load time, but that
key is then not externally supplied. -/
theorem c1_missing_key_not_fatal (env : List (String × String))
    (generated_key : String)
    (h : lookupEnv env "ENCRYPTION_KEY" = none)
    (hgen : fernetKeyValid generated_key = true) :
    ENCRYPTION_KEY env generated_key = generated_key ∧
    fernetKeyValid (ENCRYPTION_KEY env generated_key) = true ∧
    (process_starts env generated_key = true ↔
      (∃ o, OWNER_ID env = some o) ∧
      (∃ a, API_ID env = some a ∧ a ≠ 0) ∧
      BOT_TOKEN env ≠ "" ∧ API_HASH env ≠ "") := by
  have hkey : ENCRYPTION_KEY env generated_key = generated_key := by
    rw [ENCRYPTION_KEY, os_getenv, h]
    rfl
  refine ⟨hkey, by rw [hkey]; exact hgen, ?_⟩
  rw [process_starts, hkey]
  rcases hOID : OWNER_ID env with _ | o <;> rcases hAID : API_ID env with _ | a
  · simp
  · simp
  · simp
  · by_cases hbt : BOT_TOKEN env = "" <;> by_cases ha0 : a = 0 <;>
      by_cases hah : API_HASH env = "" <;> simp [hgen, hbt, ha0, hah]

/-- Witness for the amended C1 at a concrete input. -/
theorem c1_missing_key_not_fatal_witness :
    lookupEnv envNoKey "ENCRYPTION_KEY" = none ∧
    fernetKeyValid genKeyW = true ∧
    (ENCRYPTION_KEY envNoKey genKeyW = genKeyW ∧
     fernetKeyValid (ENCRYPTION_KEY envNoKey genKeyW) = true ∧
     (process_starts envNoKey genKeyW = true ↔
       (∃ o, OWNER_ID envNoKey = some o) ∧
       (∃ a, API_ID envNoKey = some a ∧ a ≠ 0) ∧
       BOT_TOKEN envNoKey ≠ "" ∧ API_HASH envNoKey ≠ "")) :=
  ⟨by decide, by decide,
    c1_missing_key_not_fatal envNoKey genKeyW (by decide) (by decide)⟩

/-- Modelled from the spec: the Security Rules Engine and Reconciliation
Engine of spec sections 4.3 and 4.4 are not present in src/ (only the
`monitoring_enabled` setting and its toggle are); this configuration record
holds the parameters of the four ordered rules, each independently
toggleable. -/
structure RulesConfig where
  countryRuleEnabled : Bool
  allowedCountries : List String
  deviceRuleEnabled : Bool
  deniedDeviceMarkers : List String
  timeRuleEnabled : Bool
  windowStart : Nat
  windowEnd : Nat
  maxRuleEnabled : Bool
  maxTrustedSessions : Nat
deriving DecidableEq, Repr

/-- Modelled from the spec: a session fingerprint observation with its
descriptive attributes (spec section 3). -/
structure SessionObservation where
  fingerprint : String
  device_model : String
  platform : String
  country : String
  ip : String
  created_at : Nat
deriving DecidableEq, Repr

/-- Lower-cased character list of a string, for the case-insensitive
device-marker match. -/
def toLowerChars (s : String) : List Char :=
  s.toList.map Char.toLower

/-- Substring containment on character lists. -/
def substrMatch (needle : List Char) : List Char → Bool
  | [] => needle.isEmpty
  | c :: rest => needle.isPrefixOf (c :: rest) || substrMatch needle rest

/-- Rule 1 of spec section 4.3: the country allow-list, violated when the
list is non-empty and the observed country is not listed. -/
def countryViolation (cfg : RulesConfig) (obs : SessionObservation) : Bool :=
  cfg.countryRuleEnabled && !cfg.allowedCountries.isEmpty &&
    !(cfg.allowedCountries.contains obs.country)

/-- Rule 2 of spec section 4.3: case-insensitive substring match of the
device model against the deny-list markers. -/
def deviceViolation (cfg : RulesConfig) (obs : SessionObservation) : Bool :=
  cfg.deviceRuleEnabled &&
    cfg.deniedDeviceMarkers.any
      (fun m => substrMatch (toLowerChars m) (toLowerChars obs.device_model))

/-- Rule 3 of spec section 4.3: the current hour must lie in the window
`[windowStart, windowEnd)`. -/
def timeViolation (cfg : RulesConfig) (hour : Nat) : Bool :=
  cfg.timeRuleEnabled && !(cfg.windowStart ≤ hour && hour < cfg.windowEnd)

/-- Rule 4 of spec section 4.3: the trusted set must stay below the
configured maximum. -/
def maxViolation (cfg : RulesConfig) (trusted : List String) : Bool :=
  cfg.maxRuleEnabled && cfg.maxTrustedSessions ≤ trusted.length

/-- Reason reported by the country rule. -/
def countryRuleReason : String := "country not in allow-list"

/-- Reason reported by the device rule. -/
def deviceRuleReason : String := "device model matches deny-list"

/-- Reason reported by the time-of-day rule. -/
def timeRuleReason : String := "hour outside allowed window"

/-- Reason reported by the max-sessions rule. -/
def maxRuleReason : String := "max concurrent trusted sessions reached"

/-- Modelled from the spec: `classify(observation, trusted) -> (terminate,
reason)` with ordered, short-circuit rule evaluation — country allow-list
first, then device deny-list, then time window, then max-session count
(spec section 4.3). -/
def classify (cfg : RulesConfig) (hour : Nat) (obs : SessionObservation)
    (trusted : List String) : Bool × String :=
  if countryViolation cfg obs then (true, countryRuleReason)
  else if deviceViolation cfg obs then (true, deviceRuleReason)
  else if timeViolation cfg hour then (true, timeRuleReason)
  else if maxViolation cfg trusted then (true, maxRuleReason)
  else (false, "trusted")

/-- Alert severities (spec section 3). -/
inductive Severity where
  | info
  | warning
  | critical
  | security
deriving DecidableEq, Repr

/-- An emitted Alert, reduced to the fields the tick properties count:
severity and message.  The tick is per-account, so `account_id` is fixed,
and timestamps and detail maps carry no information the properties use. -/
structure Alert where
  severity : Severity
  message : String
deriving DecidableEq, Repr

/-- Modelled from the spec: the ACTING phase of one reconciliation tick
(spec section 4.4).  Walks the live list; a fingerprint already in the
working trusted set is skipped, a new one is classified — terminate issues
a revocation and a security Alert, trusted emits an info Alert and joins
the working set.  Returns the working trusted set, the revocation calls and
the Alerts, in live-list order. -/
def reconcileProcess (cfg : RulesConfig) (hour : Nat) :
    List SessionObservation → List String →
      List String × List String × List Alert
  | [], working => (working, [], [])
  | obs :: rest, working =>
    if obs.fingerprint ∈ working then
      reconcileProcess cfg hour rest working
    else
      match classify cfg hour obs working with
      | (true, reason) =>
        let r := reconcileProcess cfg hour rest working
        (r.1, obs.fingerprint :: r.2.1,
          { severity := Severity.security, message := reason } :: r.2.2)
      | (false, _) =>
        let r := reconcileProcess cfg hour rest (working ++ [obs.fingerprint])
        (r.1, r.2.1,
          { severity := Severity.info, message := "new session observed" } :: r.2.2)

/-- Outcome of one reconciliation tick. -/
structure TickResult where
  revocations : List String
  alerts : List Alert
  newTrusted : List String
  persisted : Bool
deriving DecidableEq, Repr

/-- Modelled from the spec: one reconciliation tick over the trusted set
read at tick start and the live session list; the PERSISTING phase writes
back only when the working trusted set differs from the loaded one
(spec section 4.4). -/
def reconcileTick (cfg : RulesConfig) (hour : Nat) (trusted : List String)
    (live : List SessionObservation) : TickResult :=
  let r := reconcileProcess cfg hour live trusted
  { revocations := r.2.1, alerts := r.2.2, newTrusted := r.1,
    persisted := if r.1 = trusted then false else true }

theorem reconcileProcess_noop (cfg : RulesConfig) (hour : Nat) :
    ∀ (live : List SessionObservation) (working : List String),
      (∀ o ∈ live, o.fingerprint ∈ working) →
      reconcileProcess cfg hour live working = (working, [], [])
  | [], working, _ => rfl
  | obs :: rest, working, h => by
    rw [reconcileProcess, if_pos (h obs (List.mem_cons_self _ _))]
    exact reconcileProcess_noop cfg hour rest working
      (fun o ho => h o (List.mem_cons_of_mem _ ho))

/-- Claim C7: reconciliation-tick idempotence.  When the live session list
equals (as a set of fingerprints) the persisted trusted set read at tick
start, the tick issues zero revocation calls, zero Alerts and no
persistence write, and leaves the trusted set unchanged. -/
theorem c7_tick_idempotent (cfg : RulesConfig) (hour : Nat)
    (trusted : List String) (live : List SessionObservation)
    (h : ∀ f, f ∈ live.map (fun o => o.fingerprint) ↔ f ∈ trusted) :
    reconcileTick cfg hour trusted live =
      { revocations := [], alerts := [], newTrusted := trusted,
        persisted := false } := by
  have hsub : ∀ o ∈ live, o.fingerprint ∈ trusted := by
    intro o ho
    exact (h o.fingerprint).mp (List.mem_map_of_mem _ ho)
  rw [reconcileTick, reconcileProcess_noop cfg hour live trusted hsub]
  simp

/-- A concrete rules configuration used by the C7 and C8 witnesses. -/
def cfgW : RulesConfig :=
  { countryRuleEnabled := true, allowedCountries := ["US"],
    deviceRuleEnabled := true, deniedDeviceMarkers := ["bluestacks"],
    timeRuleEnabled := true, windowStart := 0, windowEnd := 24,
    maxRuleEnabled := true, maxTrustedSessions := 10 }

/-- A concrete observation already trusted, for the C7 witness. -/
def obsTrusted : SessionObservation :=
  { fingerprint := "h1", device_model := "iPhone 14", platform := "iOS",
    country := "US", ip := "1.2.3.4", created_at := 0 }

/-- Witness for C7 at a concrete input. -/
theorem c7_tick_idempotent_witness :
    (∀ f, f ∈ [obsTrusted].map (fun o => o.fingerprint) ↔ f ∈ ["h1"]) ∧
    reconcileTick cfgW 12 ["h1"] [obsTrusted] =
      { revocations := [], alerts := [], newTrusted := ["h1"],
        persisted := false } :=
  ⟨by intro f; simp [obsTrusted],
    c7_tick_idempotent cfgW 12 ["h1"] [obsTrusted]
      (by intro f; simp [obsTrusted])⟩

/-- Claim C8: rule precedence.  For an observation violating both the
country allow-list rule and the device deny-list rule, `classify`
terminates with the country reason — the first matching rule wins, and the
country check precedes the device check. -/
theorem c8_country_rule_precedes_device_rule (cfg : RulesConfig) (hour : Nat)
    (obs : SessionObservation) (trusted : List String)
    (hc : countryViolation cfg obs = true)
    (hd : deviceViolation cfg obs = true) :
    classify cfg hour obs trusted = (true, countryRuleReason) ∧
    countryRuleReason ≠ deviceRuleReason := by
  refine ⟨?_, by decide⟩
  rw [classify, if_pos hc]

/-- A concrete observation violating both the country and the device rule,
for the C8 witness. -/
def obsBoth : SessionObservation :=
  { fingerprint := "h2", device_model := "BlueStacks App Player",
    platform := "Android", country := "RU", ip := "5.6.7.8", created_at := 0 }

/-- Witness for C8 at a concrete input. -/
theorem c8_country_rule_precedes_device_rule_witness :
    countryViolation cfgW obsBoth = true ∧
    deviceViolation cfgW obsBoth = true ∧
    (classify cfgW 12 obsBoth [] = (true, countryRuleReason) ∧
     countryRuleReason ≠ deviceRuleReason) :=
  ⟨by decide, by decide,
    c8_country_rule_precedes_device_rule cfgW 12 obsBoth []
      (by decide) (by decide)⟩

end SessionBot
